import Mathlib

/-!
Verification of the weekly customs exchange-rate pipeline.

This file shallowly embeds the core logic of the two source files:
  - src/download_csv_to_gcs.py : get_sunday, generate_weekly_ranges and
    the YYMMDD bulletin-identifier formatting (strftime "%y%m%d");
  - src/main.py : the record-extraction logic of fetch_customs_rate
    (header normalization, ISO column lookup, row selection, filename
    date extraction via re.findall of six-digit substrings, the
    per-unit / per-100-units rate choice), and the CSV-link discovery
    (the BeautifulSoup anchor search plus urljoin resolution).

Python datetime objects are modelled two ways, matching how the source
uses them: as proleptic Gregorian ordinals (an integer, as produced by
date.toordinal, where ordinal 1 = 0001-01-01, a Monday) for the weekly
range enumerator, whose logic is pure day arithmetic and comparison;
and as year/month/day structures for calendar parsing and formatting.
Python float parsing is modelled on decimal literals (optional sign,
digits, optional fractional part), the shape occurring in the CSV
cells; values are rationals. The impure pd.Timestamp.now().date() is
modelled as an explicit parameter named today.
-/

/-- A calendar date as year/month/day, the shape of a Python date. -/
structure Date where
  year : Nat
  month : Nat
  day : Nat
deriving DecidableEq

/-- Gregorian leap-year test, as used by the Python datetime calendar. -/
def isLeap (y : Nat) : Bool :=
  (y % 4 == 0 && y % 100 != 0) || (y % 400 == 0)

/-- Number of days in a month of the proleptic Gregorian calendar. -/
def daysInMonth (y m : Nat) : Nat :=
  if m = 2 then (if isLeap y then 29 else 28)
  else if m = 4 ∨ m = 6 ∨ m = 9 ∨ m = 11 then 30
  else 31

/-- Validity of a year/month/day triple in the Gregorian calendar. -/
def Date.valid (dt : Date) : Prop :=
  1 ≤ dt.month ∧ dt.month ≤ 12 ∧ 1 ≤ dt.day ∧ dt.day ≤ daysInMonth dt.year dt.month

instance (dt : Date) : Decidable dt.valid := by
  unfold Date.valid
  infer_instance

/-- Successor date in the Gregorian calendar. -/
def nextDay (dt : Date) : Date :=
  if dt.day < daysInMonth dt.year dt.month then ⟨dt.year, dt.month, dt.day + 1⟩
  else if dt.month < 12 then ⟨dt.year, dt.month + 1, 1⟩
  else ⟨dt.year + 1, 1, 1⟩

/-- Adding n days to a date, the timedelta(days=n) of the source. -/
def addDays (dt : Date) : Nat → Date
  | 0 => dt
  | n + 1 => nextDay (addDays dt n)

/-- Python date comparison: lexicographic on (year, month, day). -/
def dateLe (a b : Date) : Bool :=
  a.year < b.year ∨
    (a.year = b.year ∧ (a.month < b.month ∨ (a.month = b.month ∧ a.day ≤ b.day)))

/-- Days before the first of the month, within year y (datetime internals). -/
def daysBeforeMonth (y m : Nat) : Nat :=
  (List.range (m - 1)).foldl (fun acc i => acc + daysInMonth y (i + 1)) 0

/-- Proleptic Gregorian ordinal of a date (Python date.toordinal):
ordinal 1 is 0001-01-01. Used to place concrete calendar dates on the
integer day line the range enumerator works over. -/
def ymd2ord (y m d : Nat) : ℤ :=
  (((y - 1) * 365 + (y - 1) / 4 - (y - 1) / 100 + (y - 1) / 400
      + daysBeforeMonth y m + d : Nat) : ℤ)

/-- Python date.weekday on ordinals: 0 = Monday .. 6 = Sunday
(ordinal 1 = 0001-01-01 is a Monday). -/
def weekday (d : ℤ) : ℤ := (d - 1) % 7

/-- get_sunday from src/download_csv_to_gcs.py:
days_since_sunday = weekday + 1, reset to 0 when it equals 7 (i.e. the
date is itself a Sunday), then step that many days back. -/
def get_sunday (d : ℤ) : ℤ :=
  let ds := weekday d + 1
  let ds := if ds = 7 then 0 else ds
  d - ds

/-- The while loop of generate_weekly_ranges: from the current Sunday,
emit (week_start, week_end = week_start + 6) and advance 7 days, while
current ≤ end_date. -/
def genLoop (endD : ℤ) (current : ℤ) : List (ℤ × ℤ) :=
  if h : current ≤ endD then
    (current, current + 6) :: genLoop endD (current + 7)
  else []
termination_by (endD + 1 - current).toNat
decreasing_by
  omega

/-- generate_weekly_ranges from src/download_csv_to_gcs.py, over
ordinals. The YYMMDD strings the source also places in each tuple are a
pure function of the two dates, modelled by to_identifier below. -/
def generate_weekly_ranges (start_date end_date : ℤ) : List (ℤ × ℤ) :=
  genLoop end_date (get_sunday start_date)

/-- Two-digit zero-padded decimal rendering, as in strftime fields. -/
def pad2 (n : Nat) : String :=
  String.mk [Nat.digitChar (n / 10), Nat.digitChar (n % 10)]

/-- strftime("%y%m%d"): two-digit year (year mod 100), zero-padded
month and day. -/
def strftime_yymmdd (dt : Date) : String :=
  pad2 (dt.year % 100) ++ pad2 dt.month ++ pad2 dt.day

/-- A weekly bulletin window, boundary dates in calendar form. -/
structure DateWindow where
  start_date : Date
  end_date : Date
deriving DecidableEq

/-- The bulletin identifier pair (start_str, end_str) built by
generate_weekly_ranges via strftime("%y%m%d"). -/
def to_identifier (w : DateWindow) : String × String :=
  (strftime_yymmdd w.start_date, strftime_yymmdd w.end_date)

/-- Python str.strip on the whitespace actually handled there
(space, tab, newline, carriage return, vertical tab, form feed). -/
def isSpace (c : Char) : Bool :=
  c = ' ' ∨ c = '\t' ∨ c = '\n' ∨ c = '\r' ∨ c = '\x0b' ∨ c = '\x0c'

/-- str(c).strip() applied to a column label. -/
def strip (s : String) : String :=
  String.mk (((s.data.dropWhile isSpace).reverse.dropWhile isSpace).reverse)

/-- Substring test (Python's in operator on strings). -/
def isSubstring (needle hay : List Char) : Bool :=
  hay.tails.any (fun t => needle.isPrefixOf t)

/-- Value of a list of decimal digit characters. -/
def digitsVal (cs : List Char) : Nat :=
  cs.foldl (fun acc c => acc * 10 + (c.toNat - 48)) 0

/-- str(val).replace(",", ""): drop every comma (thousands separator). -/
def stripCommas (s : String) : String :=
  String.mk (s.data.filter (fun c => c ≠ ','))

/-- Unsigned decimal literal: digits with an optional fractional part
separated by a single dot; at least one digit overall. -/
def parseUnsigned (cs : List Char) : Option ℚ :=
  match cs.splitOn '.' with
  | [intPart] =>
    if intPart ≠ [] ∧ intPart.all Char.isDigit then some (digitsVal intPart) else none
  | [intPart, fracPart] =>
    if intPart ++ fracPart ≠ [] ∧ intPart.all Char.isDigit ∧ fracPart.all Char.isDigit then
      some ((digitsVal intPart : ℚ) + (digitsVal fracPart : ℚ) / ((10 ^ fracPart.length : Nat) : ℚ))
    else none
  | _ => none

/-- Python float() on the decimal literals occurring in the CSV cells:
surrounding whitespace stripped, optional sign, digits and an optional
fractional part. A cell that is not such a literal yields none. -/
def parseDec (s : String) : Option ℚ :=
  match (strip s).data with
  | '+' :: rest => parseUnsigned rest
  | '-' :: rest => (parseUnsigned rest).map (fun q => -q)
  | cs => parseUnsigned cs

/-- to_float from src/main.py: strip commas, then attempt float
conversion, returning none on failure. -/
def to_float (val : String) : Option ℚ :=
  parseDec (stripCommas val)

/-- re.findall(r"\d{6}") scanner state machine: acc holds the digits
of the current partial match (fewer than 6 so far); a sixth consecutive
digit emits the match and restarts, a non-digit restarts. This computes
exactly the leftmost non-overlapping six-digit-substring matches of the
regular expression. -/
def findall6Aux : List Char → List Char → List String
  | [], _ => []
  | c :: rest, acc =>
    if c.isDigit then
      if (acc ++ [c]).length = 6 then
        String.mk (acc ++ [c]) :: findall6Aux rest []
      else
        findall6Aux rest (acc ++ [c])
    else
      findall6Aux rest []

/-- re.findall(r"\d{6}", file_name) from src/main.py line 97. -/
def findall6 (cs : List Char) : List String :=
  findall6Aux cs []

/-- pd.to_datetime(s, format="%Y%m%d").date(): eight digit characters,
split 4/2/2, validated against the Gregorian calendar; an invalid
month or day raises (modelled as none). -/
def parseYYYYMMDD (s : String) : Option Date :=
  let cs := s.data
  if cs.length = 8 ∧ cs.all Char.isDigit then
    let y := digitsVal (cs.take 4)
    let m := digitsVal ((cs.drop 4).take 2)
    let d := digitsVal (cs.drop 6)
    if 1 ≤ m ∧ m ≤ 12 ∧ 1 ≤ d ∧ d ≤ daysInMonth y m then some ⟨y, m, d⟩ else none
  else none

/-- The parsed CSV after pd.read_csv(..., skiprows=6): a header row of
column labels and data rows of cells, all as strings (pandas cell
values pass through str(...) before float conversion in the source). -/
structure Table where
  header : List String
  rows : List (List String)

/-- The classified failure outcomes of fetch_customs_rate:
MissingColumnError is the "ISO column not found in CSV" 500 response,
CurrencyNotFoundError the "CNY data not found" 404 response,
RateNotFoundError the "Valid rate not found" 500 response, and
GenericError the outer except-handler 500 response (raised e.g. by
pd.to_datetime on an invalid date or by an out-of-range iloc). -/
inductive ExtractError where
  | MissingColumnError
  | CurrencyNotFoundError
  | RateNotFoundError
  | GenericError
deriving DecidableEq

/-- The normalized record loaded into the warehouse table. -/
structure ExchangeRateRecord where
  start_date : Date
  end_date : Date
  iso_code : String
  currency_name : String
  rate : ℚ
  source_file : String
deriving DecidableEq

/-- df.columns = [str(c).strip() for c in df.columns]. -/
def normalized_header (df : Table) : List String :=
  df.header.map strip

/-- Position of the column literally named "ISO" in the normalized
header (pandas column lookup by name, first occurrence). -/
def iso_index (df : Table) : Option Nat :=
  (normalized_header df).findIdx? (fun c => c == "ISO")

/-- df[df["ISO"] == target]: the rows whose ISO-column cell equals the
target code exactly (case-sensitive); a missing cell never matches. -/
def matching_rows (df : Table) (target_iso : String) (i : Nat) : List (List String) :=
  df.rows.filter (fun r => r.getD i "" == target_iso)

/-- Lines 97-105 of src/main.py: re.findall(r"\d{6}") on the filename;
with at least two matches, parse "20" ++ first and "20" ++ second as
YYYYMMDD (an invalid date raises, reaching the generic handler);
otherwise fall back to the current processing date for both bounds. -/
def extract_dates (file_name : String) (today : Date) : Except ExtractError (Date × Date) :=
  if (findall6 file_name.data).length ≥ 2 then
    match parseYYYYMMDD ("20" ++ (findall6 file_name.data).getD 0 ""),
        parseYYYYMMDD ("20" ++ (findall6 file_name.data).getD 1 "") with
    | some s, some e => .ok (s, e)
    | _, _ => .error .GenericError
  else .ok (today, today)

/-- The per-100-units branch: usable only when positive, then divided
by 100 (the elif of lines 126-127). -/
def rate100 : Option ℚ → Option ℚ
  | some y => if 0 < y then some (y / 100) else none
  | none => none

/-- Lines 124-129 of src/main.py: prefer the per-unit candidate when
it converted and is positive, else try the per-100-units candidate. -/
def choose_rate : Option ℚ → Option ℚ → Option ℚ
  | some x, w => if 0 < x then some x else rate100 w
  | none, w => rate100 w

/-- Lines 95-139 of src/main.py applied to the selected row: extract
the date window from the filename, read the cells at zero-indexed
positions 4 and 5 (an out-of-range iloc raises, reaching the generic
handler), choose the rate, and build the record. The source fixes
target_iso = "CNY" and the display label "人民元". -/
def extract_from_row (row : List String) (target_iso file_name : String) (today : Date) :
    Except ExtractError ExchangeRateRecord :=
  match extract_dates file_name today with
  | .error e => .error e
  | .ok (sd, ed) =>
    match row[4]?, row[5]? with
    | some rate_1, some rate_100 =>
      match choose_rate (to_float rate_1) (to_float rate_100) with
      | some r => .ok ⟨sd, ed, target_iso, "人民元", r, file_name⟩
      | none => .error .RateNotFoundError
    | _, _ => .error .GenericError

/-- Lines 80-139 of src/main.py, from the parsed table to the record:
normalize the header, require the ISO column, select the matching
rows, use the first, then extract dates and rate. -/
def extract_rate (df : Table) (target_iso file_name : String) (today : Date) :
    Except ExtractError ExchangeRateRecord :=
  match iso_index df with
  | none => .error .MissingColumnError
  | some i =>
    match matching_rows df target_iso i with
    | [] => .error .CurrencyNotFoundError
    | row :: _ => extract_from_row row target_iso file_name today

/-- The only failure of the bulletin locator: no matching link (the
"CSV link not found" 404 response of src/main.py line 45). -/
inductive LocateError where
  | NotFoundError
deriving DecidableEq

/-- The index page URL the source resolves relative links against. -/
def base_url : String := "https://www.customs.go.jp/tetsuzuki/kawase/index.htm"

/-- The href lambda of src/main.py line 41:
h and ".csv" in h and "csv" in h. An anchor without an href attribute
(none) or with an empty href is falsy and never matches; the two
membership tests are plain substring tests. -/
def href_matches : Option String → Bool
  | none => false
  | some h => (h != "") && isSubstring ".csv".data h.data && isSubstring "csv".data h.data

/-- Scheme-and-authority prefix split: everything up to and including
"://" paired with the remainder. -/
def schemeSplitAux (pre : List Char) : List Char → Option (List Char × List Char)
  | ':' :: '/' :: '/' :: tail => some (pre.reverse ++ [':', '/', '/'], tail)
  | c :: rest => schemeSplitAux (c :: pre) rest
  | [] => none

/-- urllib.parse.urljoin(base, rel) for the reference shapes occurring
here: an empty reference yields the base, a reference carrying its own
scheme is returned as is, a root-relative reference is attached to the
base's scheme and authority, and any other relative reference replaces
the last path segment of the base. Dot-segment normalization and
query/fragment handling, which the source never exercises, are not
modelled. -/
def urljoin (base rel : String) : String :=
  if rel.data = [] then base
  else if isSubstring "://".data rel.data then rel
  else
    match rel.data with
    | '/' :: _ =>
      match schemeSplitAux [] base.data with
      | some (scheme, rest) => String.mk (scheme ++ rest.takeWhile (fun c => c ≠ '/')) ++ rel
      | none => rel
    | _ => String.mk ((base.data.reverse.dropWhile (fun c => c ≠ '/')).reverse ++ rel.data)

/-- Lines 41-49 of src/main.py: soup.find returns the first anchor (in
document order) whose href satisfies the lambda; its href is resolved
with urljoin against the index page URL. The document is modelled as
the ordered list of anchor href attributes (none when absent). -/
def locate_latest (base : String) (hrefs : List (Option String)) : Except LocateError String :=
  match hrefs.find? href_matches with
  | some h => .ok (urljoin base (h.getD ""))
  | none => .error .NotFoundError

/-- Maximal runs of consecutive digit characters in a string; acc
accumulates the current run. -/
def digitRunsAux : List Char → List Char → List (List Char)
  | [], acc => if acc = [] then [] else [acc]
  | c :: rest, acc =>
    if c.isDigit then digitRunsAux rest (acc ++ [c])
    else if acc = [] then digitRunsAux rest [] else acc :: digitRunsAux rest []

/-- Maximal digit runs of a character list. -/
def digitRuns (cs : List Char) : List (List Char) :=
  digitRunsAux cs []

/-- Modelled from the spec: "scan source_filename for all runs of
exactly 6 consecutive digits" read as the maximal digit runs whose
length is exactly 6. Stated for comparison with findall6, the
re.findall behaviour of the source. -/
def spec_six_runs (s : String) : List String :=
  ((digitRuns s.data).filter (fun r => r.length = 6)).map String.mk

/-- Modelled from the spec: the date-extraction step of the claim,
with "runs of exactly 6 consecutive digits" in place of the source's
re.findall matches; otherwise identical to extract_dates. -/
def spec_extract_dates (file_name : String) (today : Date) : Except ExtractError (Date × Date) :=
  if (spec_six_runs file_name).length ≥ 2 then
    match parseYYYYMMDD ("20" ++ (spec_six_runs file_name).getD 0 ""),
        parseYYYYMMDD ("20" ++ (spec_six_runs file_name).getD 1 "") with
    | some s, some e => .ok (s, e)
    | _, _ => .error .GenericError
  else .ok (today, today)

/-- Modelled from the spec: a target reference that "contains both a
csv path segment and a .csv suffix" — one of its slash-separated
segments is literally csv, and it ends with .csv. Stated for
comparison with href_matches, the source's lambda. -/
def spec_href_matches (h : String) : Bool :=
  (h.data.splitOn '/').contains "csv".data && ".csv".data.isSuffixOf h.data

/-- A concrete well-formed bulletin table: ISO column at position 2,
per-unit rate at position 4, per-100-units rate at position 5. -/
def sampleTable : Table :=
  { header := ["c0", "c1", " ISO ", "c3", "rate1", "rate100"]
    rows := [["x", "y", "CNY", "z", "19.50", ""]] }

/-- The same table with the per-unit cell unusable and the
per-100-units cell carrying the rate. -/
def sampleTable100 : Table :=
  { header := ["c0", "c1", " ISO ", "c3", "rate1", "rate100"]
    rows := [["x", "y", "CNY", "z", "", "1,950.00"]] }

/-- Decidable equality for Except outcomes, by cases on both sides. -/
instance instDecidableEqExcept {e a : Type} [DecidableEq e] [DecidableEq a] :
    DecidableEq (Except e a)
  | .error x, .error y =>
    match decEq x y with
    | isTrue h => isTrue (by rw [h])
    | isFalse h => isFalse (fun hh => h (by injection hh))
  | .error _, .ok _ => isFalse (fun hh => Except.noConfusion hh)
  | .ok _, .error _ => isFalse (fun hh => Except.noConfusion hh)
  | .ok x, .ok y =>
    match decEq x y with
    | isTrue h => isTrue (by rw [h])
    | isFalse h => isFalse (fun hh => h (by injection hh))

/-! ### Properties of the weekly range enumerator -/

theorem genLoop_eq (endD current : ℤ) :
    genLoop endD current =
      if current ≤ endD then (current, current + 6) :: genLoop endD (current + 7) else [] := by
  rw [genLoop]
  split <;> rfl

theorem get_sunday_bounds (d : ℤ) : get_sunday d ≤ d ∧ d ≤ get_sunday d + 6 := by
  simp only [get_sunday, weekday]
  split_ifs <;> omega

theorem weekday_get_sunday (d : ℤ) : weekday (get_sunday d) = 6 := by
  simp only [get_sunday, weekday]
  split_ifs <;> omega

theorem genLoop_getElem? (endD : ℤ) (i : Nat) : ∀ current : ℤ,
    (genLoop endD current)[i]? =
      if current + 7 * i ≤ endD then some (current + 7 * i, current + 7 * i + 6) else none := by
  induction i with
  | zero =>
    intro current
    rw [genLoop_eq]
    split
    · simp only [List.getElem?_cons_zero]
      rw [if_pos (by omega)]
      norm_num
    · rw [if_neg (by omega)]
      rfl
  | succ n ih =>
    intro current
    rw [genLoop_eq]
    split
    · simp only [List.getElem?_cons_succ]
      rw [ih (current + 7)]
      by_cases h7 : current + 7 + 7 * n ≤ endD
      · rw [if_pos h7, if_pos (by push_cast; omega)]
        push_cast
        ring_nf
      · rw [if_neg h7, if_neg (by push_cast; omega)]
    · rw [if_neg (by omega)]
      rfl

theorem mem_genLoop {endD current : ℤ} {w : ℤ × ℤ} :
    w ∈ genLoop endD current ↔
      ∃ k : Nat, w = (current + 7 * k, current + 7 * k + 6) ∧ current + 7 * k ≤ endD := by
  rw [List.mem_iff_getElem?]
  constructor
  · rintro ⟨i, hi⟩
    rw [genLoop_getElem?] at hi
    by_cases h : current + 7 * i ≤ endD
    · rw [if_pos h] at hi
      exact ⟨i, by simpa using hi.symm, h⟩
    · rw [if_neg h] at hi
      exact absurd hi (by simp)
  · rintro ⟨k, hw, hk⟩
    exact ⟨k, by rw [genLoop_getElem?, if_pos hk, hw]⟩

/-- Claim C5: for every date D, enumerate_weeks(D, D) yields exactly
one window, that window satisfies start ≤ D ≤ end, and its start falls
on a Sunday, the normalization using offset (weekday(D) + 1) mod 7
with ISO weekday indexing (0 = Monday .. 6 = Sunday). -/
theorem claim_c5 (D : ℤ) :
    generate_weekly_ranges D D = [(get_sunday D, get_sunday D + 6)] ∧
    get_sunday D ≤ D ∧ D ≤ get_sunday D + 6 ∧
    weekday (get_sunday D) = 6 ∧
    get_sunday D = D - ((weekday D + 1) % 7) := by
  obtain ⟨h1, h2⟩ := get_sunday_bounds D
  refine ⟨?_, h1, h2, weekday_get_sunday D, ?_⟩
  · rw [generate_weekly_ranges, genLoop_eq, if_pos h1, genLoop_eq, if_neg (by omega)]
  · simp only [get_sunday, weekday]
    split_ifs <;> omega

/-- Claim C6: for start ≤ end, the enumerated windows are 7-day spans
(end = start + 6), successive windows start exactly 7 days apart
(hence strictly increasing, non-overlapping and contiguous), windows
are generated only while their start does not exceed end_date, and the
window containing end_date is included untruncated. -/
theorem claim_c6 (s e : ℤ) (hse : s ≤ e) :
    (∀ w ∈ generate_weekly_ranges s e, w.2 = w.1 + 6) ∧
    (∀ (i : Nat) (w w' : ℤ × ℤ), (generate_weekly_ranges s e)[i]? = some w →
        (generate_weekly_ranges s e)[i + 1]? = some w' →
        w'.1 = w.1 + 7 ∧ w.2 < w'.1 ∧ w'.1 = w.2 + 1) ∧
    (∀ w ∈ generate_weekly_ranges s e, w.1 ≤ e) ∧
    (∃ w ∈ generate_weekly_ranges s e, w.1 ≤ e ∧ e ≤ w.2) := by
  have hc : get_sunday s ≤ s := (get_sunday_bounds s).1
  refine ⟨?_, ?_, ?_, ?_⟩
  · intro w hw
    rw [generate_weekly_ranges, mem_genLoop] at hw
    obtain ⟨k, hk, _⟩ := hw
    subst hk
    rfl
  · intro i w w' hw hw'
    rw [generate_weekly_ranges, genLoop_getElem?] at hw hw'
    by_cases h1 : get_sunday s + 7 * (i : ℤ) ≤ e
    · rw [if_pos h1] at hw
      by_cases h2 : get_sunday s + 7 * ((i + 1 : Nat) : ℤ) ≤ e
      · rw [if_pos h2] at hw'
        simp only [Option.some.injEq] at hw hw'
        subst hw
        subst hw'
        refine ⟨?_, ?_, ?_⟩ <;> simp only [] <;> push_cast <;> omega
      · rw [if_neg h2] at hw'
        simp at hw'
    · rw [if_neg h1] at hw
      simp at hw
  · intro w hw
    rw [generate_weekly_ranges, mem_genLoop] at hw
    obtain ⟨k, hk, hke⟩ := hw
    subst hk
    exact hke
  · refine ⟨(get_sunday s + 7 * (((e - get_sunday s).toNat / 7 : Nat) : ℤ),
      get_sunday s + 7 * (((e - get_sunday s).toNat / 7 : Nat) : ℤ) + 6), ?_, ?_, ?_⟩
    · rw [generate_weekly_ranges, mem_genLoop]
      exact ⟨(e - get_sunday s).toNat / 7, rfl, by omega⟩
    · simp only []
      omega
    · simp only []
      omega

/-- Witness for claim C6 at a concrete span: January 2024 contains a
window covering its final day. -/
theorem claim_c6_witness :
    ∃ w ∈ generate_weekly_ranges (ymd2ord 2024 1 1) (ymd2ord 2024 1 31),
      w.1 ≤ ymd2ord 2024 1 31 ∧ ymd2ord 2024 1 31 ≤ w.2 :=
  (claim_c6 (ymd2ord 2024 1 1) (ymd2ord 2024 1 31) (by decide)).2.2.2

/-- Claim C7 counterexample: with start_date = Monday 2024-01-08 and
end_date = Sunday 2024-01-07 we have start_date > end_date, yet
generate_weekly_ranges is not empty, because the loop begins at the
Sunday of start_date's week, which is 2024-01-07 = end_date. -/
theorem claim_c7_cex :
    ymd2ord 2024 1 7 < ymd2ord 2024 1 8 ∧
    generate_weekly_ranges (ymd2ord 2024 1 8) (ymd2ord 2024 1 7) ≠ [] := by
  constructor
  · decide
  · rw [generate_weekly_ranges, genLoop_eq, if_pos (by decide)]
    exact List.cons_ne_nil _ _

/-- Claim C7 amended: enumerate_weeks(start, end) is empty exactly
when end_date is earlier than the Sunday of start_date's week;
start_date > end_date alone does not make the sequence empty. -/
theorem claim_c7_amended (s e : ℤ) :
    generate_weekly_ranges s e = [] ↔ e < get_sunday s := by
  constructor
  · intro h0
    by_cases h : get_sunday s ≤ e
    · rw [generate_weekly_ranges, genLoop_eq, if_pos h] at h0
      exact absurd h0 (List.cons_ne_nil _ _)
    · omega
  · intro h0
    rw [generate_weekly_ranges, genLoop_eq, if_neg (by omega)]

/-! ### Injectivity of the YYMMDD bulletin identifier -/

theorem digitChar_inj : ∀ a, a < 10 → ∀ b, b < 10 → Nat.digitChar a = Nat.digitChar b → a = b := by
  decide

theorem daysInMonth_le_31 (y m : Nat) : daysInMonth y m ≤ 31 := by
  unfold daysInMonth
  split_ifs <;> omega

theorem strftime_data (dt : Date) :
    (strftime_yymmdd dt).data =
      [Nat.digitChar (dt.year % 100 / 10), Nat.digitChar (dt.year % 100 % 10),
       Nat.digitChar (dt.month / 10), Nat.digitChar (dt.month % 10),
       Nat.digitChar (dt.day / 10), Nat.digitChar (dt.day % 10)] := rfl

theorem strftime_inj {d1 d2 : Date} (h1 : d1.valid) (h2 : d2.valid)
    (h : strftime_yymmdd d1 = strftime_yymmdd d2) :
    d1.year % 100 = d2.year % 100 ∧ d1.month = d2.month ∧ d1.day = d2.day := by
  have hd := congrArg String.data h
  rw [strftime_data, strftime_data] at hd
  simp only [List.cons.injEq, and_true] at hd
  obtain ⟨e1, e2, e3, e4, e5, e6⟩ := hd
  have hm1 : d1.month ≤ 12 := h1.2.1
  have hm2 : d2.month ≤ 12 := h2.2.1
  have hdd1 : d1.day ≤ 31 := le_trans h1.2.2.2 (daysInMonth_le_31 _ _)
  have hdd2 : d2.day ≤ 31 := le_trans h2.2.2.2 (daysInMonth_le_31 _ _)
  have y1 := digitChar_inj _ (by omega) _ (by omega) e1
  have y2 := digitChar_inj _ (by omega) _ (by omega) e2
  have m1 := digitChar_inj _ (by omega) _ (by omega) e3
  have m2 := digitChar_inj _ (by omega) _ (by omega) e4
  have dd1 := digitChar_inj _ (by omega) _ (by omega) e5
  have dd2 := digitChar_inj _ (by omega) _ (by omega) e6
  omega

theorem date_eq_of_fields {a b : Date}
    (hy : a.year = b.year) (hm : a.month = b.month) (hd : a.day = b.day) : a = b := by
  cases a
  cases b
  simp_all

theorem window_eq_of_fields {a b : DateWindow}
    (h1 : a.start_date = b.start_date) (h2 : a.end_date = b.end_date) : a = b := by
  cases a
  cases b
  simp_all

/-- Claim C8: to_identifier (formatting each boundary date as YYMMDD)
is injective over distinct DateWindows satisfying the data-model
invariant end = start + 6 days whose start dates lie within a single
100-year span. -/
theorem claim_c8 (w1 w2 : DateWindow) (Y : Nat)
    (hv1 : w1.start_date.valid) (hv2 : w2.start_date.valid)
    (hinv1 : w1.end_date = addDays w1.start_date 6)
    (hinv2 : w2.end_date = addDays w2.start_date 6)
    (hY1 : Y ≤ w1.start_date.year ∧ w1.start_date.year < Y + 100)
    (hY2 : Y ≤ w2.start_date.year ∧ w2.start_date.year < Y + 100)
    (hid : to_identifier w1 = to_identifier w2) : w1 = w2 := by
  have hs : strftime_yymmdd w1.start_date = strftime_yymmdd w2.start_date :=
    congrArg Prod.fst hid
  have h3 := strftime_inj hv1 hv2 hs
  have hstart : w1.start_date = w2.start_date :=
    date_eq_of_fields (by omega) h3.2.1 h3.2.2
  refine window_eq_of_fields hstart ?_
  rw [hinv1, hinv2, hstart]

/-- Witness for claim C8: applying the injectivity theorem to the
concrete window of the first 2024 bulletin. -/
theorem claim_c8_witness :
    (⟨⟨2024, 1, 7⟩, addDays ⟨2024, 1, 7⟩ 6⟩ : DateWindow) =
      ⟨⟨2024, 1, 7⟩, addDays ⟨2024, 1, 7⟩ 6⟩ :=
  claim_c8 _ _ 2000 (by decide) (by decide) rfl rfl
    (by constructor <;> decide) (by constructor <;> decide) rfl

/-! ### Properties of the record extractor -/

theorem extract_dates_shape (fn : String) (today : Date) :
    extract_dates fn today = .error .GenericError ∨
      ∃ p, extract_dates fn today = .ok p := by
  unfold extract_dates
  split
  · split
    · right
      exact ⟨_, rfl⟩
    · left
      rfl
  · right
    exact ⟨_, rfl⟩

theorem extract_dates_fallback {fn : String} {today : Date}
    (h : ¬ (findall6 fn.data).length ≥ 2) : extract_dates fn today = .ok (today, today) := by
  unfold extract_dates
  rw [if_neg h]

theorem rate100_pos {w : Option ℚ} {r : ℚ} (h : rate100 w = some r) : 0 < r := by
  rcases w with _ | y
  · exact absurd h (by simp [rate100])
  · simp only [rate100] at h
    split_ifs at h with hy
    obtain rfl : y / 100 = r := by injection h
    positivity

theorem choose_rate_pos {v1 v100 : Option ℚ} {r : ℚ}
    (h : choose_rate v1 v100 = some r) : 0 < r := by
  rcases v1 with _ | x
  · exact rate100_pos h
  · simp only [choose_rate] at h
    by_cases hx : 0 < x
    · rw [if_pos hx] at h
      obtain rfl : x = r := by injection h
      exact hx
    · rw [if_neg hx] at h
      exact rate100_pos h

theorem choose_rate_first {v1 v100 : Option ℚ} {x : ℚ} (hv : v1 = some x) (hx : 0 < x) :
    choose_rate v1 v100 = some x := by
  subst hv
  simp only [choose_rate]
  rw [if_pos hx]

theorem choose_rate_second {v1 v100 : Option ℚ} (hv : ∀ x, v1 = some x → x ≤ 0) :
    choose_rate v1 v100 = rate100 v100 := by
  rcases v1 with _ | x
  · rfl
  · simp only [choose_rate]
    rw [if_neg (not_lt.mpr (hv x rfl))]

theorem extract_rate_row {df : Table} {t fn : String} {today : Date} {i : Nat}
    {row : List String} {rest : List (List String)}
    (hi : iso_index df = some i) (hrow : matching_rows df t i = row :: rest) :
    extract_rate df t fn today = extract_from_row row t fn today := by
  simp only [extract_rate, hi, hrow]

theorem extract_from_row_rate {row : List String} {t fn : String} {today : Date}
    {sd ed : Date} {c4 c5 : String}
    (hd : extract_dates fn today = .ok (sd, ed))
    (h4 : row[4]? = some c4) (h5 : row[5]? = some c5) :
    extract_from_row row t fn today =
      match choose_rate (to_float c4) (to_float c5) with
      | some r => .ok ⟨sd, ed, t, "人民元", r, fn⟩
      | none => .error .RateNotFoundError := by
  unfold extract_from_row
  rw [hd, h4, h5]

theorem extract_from_row_error {row : List String} {t fn : String} {today : Date}
    {e : ExtractError} (he : extract_from_row row t fn today = .error e) :
    e = .GenericError ∨ e = .RateNotFoundError := by
  unfold extract_from_row at he
  split at he
  · rename_i e' heq
    rcases extract_dates_shape fn today with h | ⟨p, h⟩
    · rw [heq] at h
      injection h with h
      injection he with he
      left
      rw [← he]
      exact h
    · rw [heq] at h
      exact Except.noConfusion h
  · split at he
    · split at he
      · exact Except.noConfusion he
      · injection he with he
        right
        rw [← he]
    · injection he with he
      left
      rw [← he]

theorem extract_from_row_not_column (row : List String) (t fn : String) (today : Date) :
    extract_from_row row t fn today ≠ .error .MissingColumnError ∧
    extract_from_row row t fn today ≠ .error .CurrencyNotFoundError := by
  constructor
  · intro hc
    rcases extract_from_row_error hc with h | h <;> exact ExtractError.noConfusion h
  · intro hc
    rcases extract_from_row_error hc with h | h <;> exact ExtractError.noConfusion h

theorem extract_from_row_ok {row : List String} {t fn : String} {today : Date}
    {r : ExchangeRateRecord} (h : extract_from_row row t fn today = .ok r) :
    0 < r.rate ∧ r.iso_code = t ∧ r.currency_name = "人民元" ∧ r.source_file = fn ∧
      extract_dates fn today = .ok (r.start_date, r.end_date) := by
  unfold extract_from_row at h
  split at h
  · exact Except.noConfusion h
  · rename_i sd ed heq
    split at h
    · split at h
      · rename_i hr
        obtain rfl : (⟨sd, ed, t, "人民元", _, fn⟩ : ExchangeRateRecord) = r := by injection h
        exact ⟨choose_rate_pos hr, rfl, rfl, rfl, heq⟩
      · exact Except.noConfusion h
    · exact Except.noConfusion h

/-- Claim C1: on any extracted currency row, the cell at zero-indexed
position 4 is the per-unit candidate and position 5 the per-100-units
candidate; each is converted after comma removal (to_float); a
positive per-unit value is returned as the rate, else a positive
per-100-units value divided by 100, else RateNotFoundError. -/
theorem claim_c1 (df : Table) (t fn : String) (today : Date) (i : Nat)
    (row : List String) (rest : List (List String)) (sd ed : Date) (c4 c5 : String)
    (hi : iso_index df = some i) (hrow : matching_rows df t i = row :: rest)
    (hd : extract_dates fn today = .ok (sd, ed))
    (h4 : row[4]? = some c4) (h5 : row[5]? = some c5) :
    (∀ x, to_float c4 = some x → 0 < x →
        extract_rate df t fn today = .ok ⟨sd, ed, t, "人民元", x, fn⟩) ∧
    ((∀ x, to_float c4 = some x → x ≤ 0) → ∀ y, to_float c5 = some y → 0 < y →
        extract_rate df t fn today = .ok ⟨sd, ed, t, "人民元", y / 100, fn⟩) ∧
    ((∀ x, to_float c4 = some x → x ≤ 0) → (∀ y, to_float c5 = some y → y ≤ 0) →
        extract_rate df t fn today = .error .RateNotFoundError) ∧
    to_float c4 = parseDec (stripCommas c4) := by
  have hb : extract_rate df t fn today = extract_from_row row t fn today :=
    extract_rate_row hi hrow
  refine ⟨?_, ?_, ?_, rfl⟩
  · intro x hx hpos
    rw [hb, extract_from_row_rate hd h4 h5, choose_rate_first hx hpos]
  · intro hnp y hy hpos
    rw [hb, extract_from_row_rate hd h4 h5, choose_rate_second hnp, hy]
    simp only [rate100]
    rw [if_pos hpos]
  · intro hnp hnp2
    rw [hb, extract_from_row_rate hd h4 h5, choose_rate_second hnp]
    rcases hv : to_float c5 with _ | y
    · rfl
    · simp only [rate100]
      rw [if_neg (not_lt.mpr (hnp2 y hv))]

/-- Witness for claim C1: a concrete bulletin row with a positive
per-unit cell yields that value as the rate. -/
theorem claim_c1_witness :
    extract_rate sampleTable "CNY" "240107-240113.csv" ⟨2026, 10, 12⟩ =
      .ok ⟨⟨2024, 1, 7⟩, ⟨2024, 1, 13⟩, "CNY", "人民元", 39 / 2, "240107-240113.csv"⟩ :=
  (claim_c1 sampleTable "CNY" "240107-240113.csv" ⟨2026, 10, 12⟩ 2
      ["x", "y", "CNY", "z", "19.50", ""] [] ⟨2024, 1, 7⟩ ⟨2024, 1, 13⟩ "19.50" ""
      rfl rfl rfl rfl rfl).1 (39 / 2) (by with_unfolding_all decide)
    (by with_unfolding_all decide)

theorem findIdx?_none_iff {l : List String} :
    l.findIdx? (fun c => c == "ISO") = none ↔ "ISO" ∉ l := by
  rw [List.findIdx?_eq_none_iff]
  constructor
  · intro h hmem
    have hx := h _ hmem
    simp at hx
  · intro h x hx
    simp only [beq_eq_false_iff_ne, ne_eq]
    intro he
    exact h (he ▸ hx)

/-- Claim C3: after header normalization, extract_rate fails with
MissingColumnError exactly when no column is literally named ISO;
otherwise it fails with CurrencyNotFoundError exactly when no row's
ISO cell equals the target code (case-sensitive); and with several
matching rows, the outcome is computed from the first one. -/
theorem claim_c3 (df : Table) (t fn : String) (today : Date) :
    (extract_rate df t fn today = .error .MissingColumnError ↔ iso_index df = none) ∧
    (iso_index df = none ↔ "ISO" ∉ normalized_header df) ∧
    (∀ i, iso_index df = some i →
      (extract_rate df t fn today = .error .CurrencyNotFoundError ↔
        matching_rows df t i = [])) ∧
    (∀ i row rest, iso_index df = some i → matching_rows df t i = row :: rest →
      extract_rate df t fn today = extract_from_row row t fn today) := by
  refine ⟨?_, findIdx?_none_iff, ?_, fun i row rest hi hrow => extract_rate_row hi hrow⟩
  · constructor
    · intro h
      cases hio : iso_index df with
      | none => rfl
      | some i =>
        exfalso
        cases hmr : matching_rows df t i with
        | nil =>
          have hc : extract_rate df t fn today = .error .CurrencyNotFoundError := by
            simp only [extract_rate, hio, hmr]
          rw [hc] at h
          injection h with h
          exact ExtractError.noConfusion h
        | cons row rest =>
          rw [extract_rate_row hio hmr] at h
          exact (extract_from_row_not_column row t fn today).1 h
    · intro h
      simp only [extract_rate, h]
  · intro i hi
    constructor
    · intro h
      cases hmr : matching_rows df t i with
      | nil => rfl
      | cons row rest =>
        exfalso
        rw [extract_rate_row hi hmr] at h
        exact (extract_from_row_not_column row t fn today).2 h
    · intro h
      simp only [extract_rate, hi, h]

/-- Witness for claim C3: a table whose only row carries a different
ISO code makes extract_rate fail with CurrencyNotFoundError. -/
theorem claim_c3_witness :
    extract_rate (Table.mk ["ISO"] [["USD"]]) "CNY" "f.csv" ⟨2026, 10, 12⟩ =
      .error .CurrencyNotFoundError :=
  ((claim_c3 (Table.mk ["ISO"] [["USD"]]) "CNY" "f.csv" ⟨2026, 10, 12⟩).2.2.1 0 rfl).mpr rfl

/-- Claim C9 counterexample: a filename whose two date codes are out
of order yields a successfully extracted record whose start_date is
after its end_date, violating the claimed record invariant
start_date ≤ end_date. -/
theorem claim_c9_cex :
    extract_rate sampleTable "CNY" "240113-240107.csv" ⟨2026, 10, 12⟩ =
      .ok ⟨⟨2024, 1, 13⟩, ⟨2024, 1, 7⟩, "CNY", "人民元", 39 / 2, "240113-240107.csv"⟩ ∧
    dateLe ⟨2024, 1, 13⟩ ⟨2024, 1, 7⟩ = false := by
  constructor
  · rw [@extract_rate_row sampleTable "CNY" "240113-240107.csv" ⟨2026, 10, 12⟩ 2
        ["x", "y", "CNY", "z", "19.50", ""] [] rfl rfl]
    rw [@extract_from_row_rate ["x", "y", "CNY", "z", "19.50", ""] "CNY" "240113-240107.csv"
        ⟨2026, 10, 12⟩ ⟨2024, 1, 13⟩ ⟨2024, 1, 7⟩ "19.50" "" (by decide) rfl rfl]
    rw [@choose_rate_first (to_float "19.50") (to_float "") (39 / 2)
        (by with_unfolding_all decide) (by with_unfolding_all decide)]
  · decide

/-- Claim C9 amended: every record returned by extract_rate has a
positive rate, the target ISO code, the originating filename and the
static display label; its dates are exactly those of extract_dates,
and on the fallback path (fewer than two six-digit matches) start and
end coincide, hence start_date ≤ end_date there. In general
start_date ≤ end_date is not guaranteed: it can fail when the
filename's two date codes are out of order. -/
theorem claim_c9_amended (df : Table) (t fn : String) (today : Date)
    (r : ExchangeRateRecord) (h : extract_rate df t fn today = .ok r) :
    0 < r.rate ∧ r.iso_code = t ∧ r.source_file = fn ∧ r.currency_name = "人民元" ∧
    extract_dates fn today = .ok (r.start_date, r.end_date) ∧
    ((findall6 fn.data).length < 2 → r.start_date = r.end_date) := by
  unfold extract_rate at h
  split at h
  · exact Except.noConfusion h
  · split at h
    · exact Except.noConfusion h
    · obtain ⟨hpos, hiso, hcur, hsrc, hdates⟩ := extract_from_row_ok h
      refine ⟨hpos, hiso, hsrc, hcur, hdates, ?_⟩
      intro hlen
      have hf := @extract_dates_fallback fn today (by omega)
      rw [hdates] at hf
      injection hf with hp
      have h1 := congrArg Prod.fst hp
      have h2 := congrArg Prod.snd hp
      simp only [] at h1 h2
      rw [h1, h2]

/-- Witness for the amended claim C9: the record of a well-formed
bulletin has a positive rate. -/
theorem claim_c9_amended_witness :
    0 < (ExchangeRateRecord.mk ⟨2024, 1, 7⟩ ⟨2024, 1, 13⟩ "CNY" "人民元" (39 / 2)
      "240107-240113.csv").rate :=
  (claim_c9_amended sampleTable "CNY" "240107-240113.csv" ⟨2026, 10, 12⟩ _ (by
    rw [@extract_rate_row sampleTable "CNY" "240107-240113.csv" ⟨2026, 10, 12⟩ 2
        ["x", "y", "CNY", "z", "19.50", ""] [] rfl rfl]
    rw [@extract_from_row_rate ["x", "y", "CNY", "z", "19.50", ""] "CNY" "240107-240113.csv"
        ⟨2026, 10, 12⟩ ⟨2024, 1, 7⟩ ⟨2024, 1, 13⟩ "19.50" "" (by decide) rfl rfl]
    rw [@choose_rate_first (to_float "19.50") (to_float "") (39 / 2)
        (by with_unfolding_all decide) (by with_unfolding_all decide)])).1

/-- Claim C10: when the filename carries at least two six-digit
matches but one of them, prefixed with "20", is not a valid YYYYMMDD
date, extract_rate fails with the generic classified error; the
current-date fallback is taken exactly when fewer than two six-digit
matches are found. -/
theorem claim_c10 (df : Table) (t fn : String) (today : Date) (i : Nat)
    (row : List String) (rest : List (List String))
    (hi : iso_index df = some i) (hrow : matching_rows df t i = row :: rest) :
    ((findall6 fn.data).length ≥ 2 →
      (parseYYYYMMDD ("20" ++ (findall6 fn.data).getD 0 "") = none ∨
        parseYYYYMMDD ("20" ++ (findall6 fn.data).getD 1 "") = none) →
      extract_rate df t fn today = .error .GenericError) ∧
    (¬ (findall6 fn.data).length ≥ 2 → extract_dates fn today = .ok (today, today)) := by
  constructor
  · intro hlen hbad
    have hdates : extract_dates fn today = .error .GenericError := by
      unfold extract_dates
      rw [if_pos hlen]
      rcases hbad with hb0 | hb1
      · rw [hb0]
      · rw [hb1]
        rcases parseYYYYMMDD ("20" ++ (findall6 fn.data).getD 0 "") with _ | d1 <;> rfl
    rw [extract_rate_row hi hrow]
    unfold extract_from_row
    rw [hdates]
  · intro hlen
    exact extract_dates_fallback hlen

/-- Witness for claim C10: the filename 999999-999999.csv has two
six-digit matches, but 20999999 is not a valid date, so extraction
fails with the generic error instead of the current-date fallback. -/
theorem claim_c10_witness :
    extract_rate sampleTable "CNY" "999999-999999.csv" ⟨2026, 10, 12⟩ =
      .error .GenericError :=
  (claim_c10 sampleTable "CNY" "999999-999999.csv" ⟨2026, 10, 12⟩ 2
      ["x", "y", "CNY", "z", "19.50", ""] [] rfl rfl).1 (by decide) (Or.inl (by decide))

/-! ### Filename date extraction and the six-digit scanner -/

theorem findall6Aux_matches (cs : List Char) : ∀ acc, acc.all Char.isDigit = true →
    acc.length < 6 → ∀ m ∈ findall6Aux cs acc,
      m.length = 6 ∧ m.data.all Char.isDigit = true := by
  induction cs with
  | nil =>
    intro acc _ _ m hm
    simp [findall6Aux] at hm
  | cons c rest ih =>
    intro acc hacc hlen m hm
    unfold findall6Aux at hm
    by_cases hc : c.isDigit
    · rw [if_pos hc] at hm
      by_cases h6 : (acc ++ [c]).length = 6
      · rw [if_pos h6] at hm
        rcases List.mem_cons.mp hm with h | h
        · subst h
          refine ⟨by rw [← h6]; rfl, ?_⟩
          show (acc ++ [c]).all Char.isDigit = true
          rw [List.all_append]
          simp [hacc, hc]
        · exact ih [] rfl (by norm_num) m h
      · rw [if_neg h6] at hm
        refine ih (acc ++ [c]) ?_ ?_ m hm
        · rw [List.all_append]
          simp [hacc, hc]
        · rw [List.length_append] at h6 ⊢
          simp only [List.length_singleton] at h6 ⊢
          omega
    · rw [if_neg hc] at hm
      exact ih [] rfl (by norm_num) m hm

theorem findall6_matches (s : String) :
    ∀ m ∈ findall6 s.data, m.length = 6 ∧ m.data.all Char.isDigit = true :=
  findall6Aux_matches s.data [] rfl (by norm_num)

/-- Claim C2 counterexample: on the filename 2401072-240113.csv the
maximal digit runs are 2401072 (seven digits) and 240113, so under the
claim's reading ("runs of exactly 6 consecutive digits") only one run
exists and both dates fall back to the current processing date; the
code's re.findall, however, extracts the non-overlapping six-digit
substrings 240107 and 240113 and parses them as the window. -/
theorem claim_c2_cex :
    spec_extract_dates "2401072-240113.csv" ⟨2026, 10, 12⟩ =
      .ok (⟨2026, 10, 12⟩, ⟨2026, 10, 12⟩) ∧
    extract_dates "2401072-240113.csv" ⟨2026, 10, 12⟩ =
      .ok (⟨2024, 1, 7⟩, ⟨2024, 1, 13⟩) ∧
    spec_extract_dates "2401072-240113.csv" ⟨2026, 10, 12⟩ ≠
      extract_dates "2401072-240113.csv" ⟨2026, 10, 12⟩ :=
  ⟨by decide, by decide, by decide⟩

/-- Claim C2 amended: date extraction scans the filename left to right
for non-overlapping six-digit substrings (re.findall of a six-digit
pattern; every match consists of exactly 6 digit characters); with at
least 2 matches the first and second, prefixed with "20", are parsed
as YYYYMMDD start and end; with fewer than 2 matches both dates fall
back to the current processing date; 240107-240113.csv still yields
2024-01-07 and 2024-01-13. -/
theorem claim_c2_amended :
    (∀ s : String, ∀ m ∈ findall6 s.data,
      m.length = 6 ∧ m.data.all Char.isDigit = true) ∧
    (∀ (fn : String) (today : Date), (findall6 fn.data).length < 2 →
      extract_dates fn today = .ok (today, today)) ∧
    (∀ (fn : String) (today : Date) (m0 m1 : String) (ms : List String),
      findall6 fn.data = m0 :: m1 :: ms →
      extract_dates fn today =
        match parseYYYYMMDD ("20" ++ m0), parseYYYYMMDD ("20" ++ m1) with
        | some s, some e => .ok (s, e)
        | _, _ => .error .GenericError) ∧
    (∀ today : Date, extract_dates "240107-240113.csv" today =
      .ok (⟨2024, 1, 7⟩, ⟨2024, 1, 13⟩)) := by
  refine ⟨fun s => findall6_matches s, ?_, ?_, fun today => rfl⟩
  · intro fn today hlen
    exact @extract_dates_fallback fn today (by omega)
  · intro fn today m0 m1 ms hms
    unfold extract_dates
    rw [hms, if_pos (by simp)]
    rfl

/-- Witness for the amended claim C2: a filename without six-digit
matches takes the current-date fallback. -/
theorem claim_c2_amended_witness :
    extract_dates "nodigits.csv" ⟨2026, 10, 12⟩ =
      .ok (⟨2026, 10, 12⟩, ⟨2026, 10, 12⟩) :=
  claim_c2_amended.2.1 "nodigits.csv" ⟨2026, 10, 12⟩ (by decide)

/-! ### The bulletin locator -/

theorem find?_first {α : Type} (p : α → Bool) :
    ∀ (l : List α) (i : Nat) (x : α), l[i]? = some x → p x = true →
      (∀ j, j < i → ∀ o, l[j]? = some o → p o = false) → l.find? p = some x := by
  intro l
  induction l with
  | nil =>
    intro i x hi _ _
    simp at hi
  | cons a as ih =>
    intro i x hi hx hfirst
    cases i with
    | zero =>
      simp only [List.getElem?_cons_zero, Option.some.injEq] at hi
      subst hi
      exact List.find?_cons_of_pos _ hx
    | succ n =>
      have ha : p a = false := hfirst 0 (by omega) a (by simp)
      rw [List.find?_cons_of_neg _ (by simp [ha])]
      refine ih n x ?_ hx ?_
      · simpa using hi
      · intro j hj o ho
        exact hfirst (j + 1) (by omega) o (by simpa using ho)

/-- Claim C4 counterexample: the anchor reference old.csvx/page.htm
contains ".csv" and "csv" as substrings, so the code accepts it and
returns its resolved URL, although it has no csv path segment and no
.csv suffix; under the claim's predicate no anchor matches and the
outcome would be NotFoundError. -/
theorem claim_c4_cex :
    locate_latest base_url [some "old.csvx/page.htm"] =
      .ok "https://www.customs.go.jp/tetsuzuki/kawase/old.csvx/page.htm" ∧
    spec_href_matches "old.csvx/page.htm" = false :=
  ⟨by decide, by decide⟩

/-- Claim C4 amended: locate_latest returns the first anchor in
document order whose href is truthy and contains ".csv" and "csv" as
substrings (not necessarily a csv path segment or a .csv suffix),
resolved with urljoin against the index page URL; when no anchor
satisfies that predicate it fails with NotFoundError. -/
theorem claim_c4_amended (base : String) (hrefs : List (Option String)) :
    ((∀ o ∈ hrefs, href_matches o = false) →
      locate_latest base hrefs = .error .NotFoundError) ∧
    (∀ (i : Nat) (h : String), hrefs[i]? = some (some h) → href_matches (some h) = true →
      (∀ j, j < i → ∀ o, hrefs[j]? = some o → href_matches o = false) →
      locate_latest base hrefs = .ok (urljoin base h)) := by
  constructor
  · intro hall
    have hnone : hrefs.find? href_matches = none := by
      rw [List.find?_eq_none]
      intro o ho
      rw [hall o ho]
      simp
    unfold locate_latest
    rw [hnone]
  · intro i h hi hmatch hfirst
    have hfind : hrefs.find? href_matches = some (some h) :=
      find?_first href_matches hrefs i (some h) hi hmatch hfirst
    unfold locate_latest
    rw [hfind]
    rfl

/-- Witness for the amended claim C4: with a non-matching first anchor
and a matching second one, the second anchor's resolved URL is
returned. -/
theorem claim_c4_amended_witness :
    locate_latest base_url [some "page.html", some "csv/240107-240113.csv"] =
      .ok (urljoin base_url "csv/240107-240113.csv") :=
  (claim_c4_amended base_url [some "page.html", some "csv/240107-240113.csv"]).2 1
    "csv/240107-240113.csv" rfl (by decide)
    (by
      intro j hj o ho
      have hj0 : j = 0 := by omega
      subst hj0
      simp only [List.getElem?_cons_zero, Option.some.injEq] at ho
      subst ho
      decide)
